import Mathlib

/-!
Verification development for the mutantWarplet client.

This file gives a shallow embedding of the core mutation pipeline of the
repository: the mutation-intensity profile (`getMutationConfig` in
`src/services/warpletService.ts`), the generative-stream image extraction
(`extractImageFromStream` in `warpletService.ts` and the equivalent loop in
`imageGeneration.ts`), the component-level handlers of
`src/components/MutationComponent.tsx` (`handleRemutate`,
`handleProceedToMint`, the `generateMutation` effect), the receipt parsing of
`src/services/mintService.ts` (`mintMutant`), and the asset-resolution path
(`checkWarpletOwnership`, `fetchWarpletByTokenId` in `warpletService.ts`,
composed by `loadWarplet` in `App.tsx`).

External I/O (HTTP fetches, chain calls, the generative stream) is modelled by
passing each call's outcome in as an explicit oracle value; the stateful React
handlers are modelled as explicit state-transition functions, with a trace of
intermediate states or of performed calls where a claim is about ordering or
transient values.
-/

namespace MutantWarplet

/-! ## Mutation intensity profile

Embeds `getMutationConfig` (src/services/warpletService.ts, lines 198-206).
The JS `strength` is a double; it is modelled as a rational number, which
preserves the ordering structure of the comparisons against 0.4 and 0.7.
-/

inductive MutationLevel
  | subtle
  | moderate
  | heavy
deriving DecidableEq, Repr

structure MutationConfig where
  level : MutationLevel
  mutationPercent : Nat
  preservePercent : Nat
deriving DecidableEq, Repr

def getMutationConfig (strength : ℚ) : MutationConfig :=
  if strength < 2/5 then
    ⟨.subtle, 30, 70⟩
  else if strength < 7/10 then
    ⟨.moderate, 60, 40⟩
  else
    ⟨.heavy, 90, 10⟩

/-- Claim C1: for every intensity, the derived profile is subtle/30/70 below
0.4, moderate/60/40 on [0.4, 0.7), heavy/90/10 at or above 0.7, and in every
case mutationPercent + preservePercent = 100. -/
theorem getMutationConfig_spec (strength : ℚ) :
    (strength < 2/5 → getMutationConfig strength = ⟨.subtle, 30, 70⟩) ∧
    (2/5 ≤ strength → strength < 7/10 →
      getMutationConfig strength = ⟨.moderate, 60, 40⟩) ∧
    (7/10 ≤ strength → getMutationConfig strength = ⟨.heavy, 90, 10⟩) ∧
    (getMutationConfig strength).mutationPercent
      + (getMutationConfig strength).preservePercent = 100 := by
  unfold getMutationConfig
  refine ⟨fun h => by simp [h], fun h1 h2 => by simp [not_lt.mpr h1, h2],
    fun h => by
      have h2 : (2/5 : ℚ) ≤ strength := le_trans (by norm_num) h
      simp [not_lt.mpr h2, not_lt.mpr h], ?_⟩
  split_ifs <;> simp

/-- Concrete instantiation of `getMutationConfig_spec` at strengths 0.2, 0.5
and 0.75, one per tier. -/
theorem getMutationConfig_spec_witness :
    getMutationConfig (1/5) = ⟨.subtle, 30, 70⟩ ∧
    getMutationConfig (1/2) = ⟨.moderate, 60, 40⟩ ∧
    getMutationConfig (3/4) = ⟨.heavy, 90, 10⟩ :=
  ⟨(getMutationConfig_spec (1/5)).1 (by norm_num),
   (getMutationConfig_spec (1/2)).2.1 (by norm_num) (by norm_num),
   (getMutationConfig_spec (3/4)).2.2.1 (by norm_num)⟩

/-! ## Generative-stream image extraction

Embeds `extractImageFromStream` (src/services/warpletService.ts, lines
263-282) and the identical scanning loop in
`ImageGenerationService.generateMutatedImage`
(src/services/imageGeneration.ts, lines 86-108). The stream is modelled as a
list of chunks; JS `undefined` fields are `Option.none`. JS string truthiness
(the check `inlineData?.data && inlineData?.mimeType`) is modelled by
`truthyStr`, under which the empty string counts as absent.

The guard `if (!chunk.candidates?.[0]?.content?.parts) continue` skips a chunk
whenever the chain of optional accesses yields `undefined`; note that an empty
`parts` array is truthy in JS, so it passes the guard, and the subsequent
unguarded access `parts[0].inlineData` then throws a TypeError. The outcome
type records that case explicitly, together with the unconsumed remainder of
the stream on every exit path (the source returns out of the `for await` loop,
leaving the rest of the stream unread).
-/

structure InlineData where
  data : Option String
  mimeType : Option String
deriving DecidableEq, Repr

structure GenPart where
  inlineData : Option InlineData
deriving DecidableEq, Repr

structure GenContent where
  parts : Option (List GenPart)
deriving DecidableEq, Repr

structure GenCandidate where
  content : Option GenContent
deriving DecidableEq, Repr

structure GenChunk where
  candidates : Option (List GenCandidate)
deriving DecidableEq, Repr

/-- JS truthiness of an optional string: `undefined` and `""` are falsy. -/
def truthyStr : Option String → Option String
  | none => none
  | some s => if s = "" then none else some s

/-- The optional-chain `chunk.candidates?.[0]?.content?.parts`. -/
def guardParts (c : GenChunk) : Option (List GenPart) :=
  c.candidates.bind fun cs =>
    cs.head?.bind fun cand =>
      cand.content.bind fun ct => ct.parts

/-- What the source reads out of one part: the inline data and MIME type when
both are truthy, per `if (inlineData?.data && inlineData?.mimeType)`. -/
def partImage (p : GenPart) : Option (String × String) :=
  match p.inlineData with
  | none => none
  | some i =>
    match truthyStr i.data, truthyStr i.mimeType with
    | some d, some m => some (d, m)
    | _, _ => none

/-- Image data the source would return for a chunk: the first part's inline
data, provided the chunk passes the guard and has a nonempty parts array. -/
def chunkFirstPartImage (c : GenChunk) : Option (String × String) :=
  match guardParts c with
  | some (p :: _) => partImage p
  | _ => none

/-- Whether any part reachable through the guard carries truthy inline image
data with a MIME type — the reading of "a chunk that contains inline image
bytes with a MIME type". -/
def chunkHasImageData (c : GenChunk) : Bool :=
  match guardParts c with
  | some l => l.any fun p => (partImage p).isSome
  | none => false

inductive ExtractOutcome
  | found (data mimeType : String) (rest : List GenChunk)
  | typeErrorThrown (rest : List GenChunk)
  | noImage
deriving DecidableEq, Repr

/-- Embeds the `for await` scan: per chunk, apply the guard, then read
`parts[0].inlineData` (a TypeError when `parts` is an empty array), returning
on the first part-0 hit and throwing the no-image error after stream end. Each
exit before stream end records the unconsumed remainder. -/
def extractImageFromStream : List GenChunk → ExtractOutcome
  | [] => .noImage
  | c :: rest =>
    match guardParts c with
    | none => extractImageFromStream rest
    | some [] => .typeErrorThrown rest
    | some (p :: _) =>
      match partImage p with
      | some (d, m) => .found d m rest
      | none => extractImageFromStream rest

/-- A chunk whose single candidate carries the given parts list. -/
def mkChunk (parts : Option (List GenPart)) : GenChunk :=
  ⟨some [⟨some ⟨parts⟩⟩]⟩

/-- A part with truthy inline image bytes and MIME type. -/
def imgPart (d m : String) : GenPart := ⟨some ⟨some d, some m⟩⟩

/-- A part with no inline image data (e.g. a text part). -/
def textPart : GenPart := ⟨none⟩

/-- Counterexample to claim C5. First conjunct: in the stream whose first
chunk contains inline image bytes only in its second part and whose second
chunk has them in its first part, the code returns the second chunk's image,
not the first chunk that contains inline image bytes with a MIME type. Second
conjunct: a stream yielding a single chunk with no image data (an empty
parts array, which passes the guard) ends in a TypeError, not the
no-image-in-response error. -/
theorem extractImageFromStream_c5_counterexample :
    chunkHasImageData (mkChunk (some [textPart, imgPart "A" "image/png"])) = true ∧
    extractImageFromStream
      [mkChunk (some [textPart, imgPart "A" "image/png"]),
       mkChunk (some [imgPart "B" "image/png"])] = .found "B" "image/png" [] ∧
    ("B" : String) ≠ "A" ∧
    chunkHasImageData (mkChunk (some [])) = false ∧
    extractImageFromStream [mkChunk (some [])] = .typeErrorThrown [] ∧
    ExtractOutcome.typeErrorThrown [] ≠ .noImage := by
  refine ⟨rfl, rfl, by decide, rfl, rfl, by decide⟩

/-- One scan step: a chunk whose first part carries truthy inline image data
makes the scan return that data, leaving the rest unconsumed. -/
theorem extractImageFromStream_cons_found (c : GenChunk) (s : List GenChunk)
    (d m : String) (h : chunkFirstPartImage c = some (d, m)) :
    extractImageFromStream (c :: s) = .found d m s := by
  unfold chunkFirstPartImage at h
  rcases hg : guardParts c with _ | (_ | ⟨p, ps⟩) <;> rw [hg] at h <;>
    simp only [] at h
  · exact absurd h (by simp)
  · exact absurd h (by simp)
  · simp only [extractImageFromStream, hg, h]

/-- One scan step: a chunk that either fails the guard or has a nonempty parts
list whose first part lacks image data is skipped. -/
theorem extractImageFromStream_cons_skip (c : GenChunk) (s : List GenChunk)
    (h1 : chunkFirstPartImage c = none) (h2 : guardParts c ≠ some []) :
    extractImageFromStream (c :: s) = extractImageFromStream s := by
  unfold chunkFirstPartImage at h1
  rcases hg : guardParts c with _ | (_ | ⟨p, ps⟩)
  · simp only [extractImageFromStream, hg]
  · exact absurd hg h2
  · rw [hg] at h1
    simp only [] at h1
    simp only [extractImageFromStream, hg, h1]

/-- Claim C5 (amended): the extraction returns the image data and MIME type of
the first chunk whose FIRST part carries truthy inline image bytes and a MIME
type, leaving the remainder of the stream unconsumed; and if every chunk of
the stream lacks such a first part while none passes the guard with an empty
parts array, the call fails with the no-image-in-response error. -/
theorem extractImageFromStream_spec (pre post : List GenChunk) (c : GenChunk)
    (d m : String)
    (hpre : ∀ c' ∈ pre, chunkFirstPartImage c' = none ∧ guardParts c' ≠ some [])
    (hc : chunkFirstPartImage c = some (d, m)) :
    extractImageFromStream (pre ++ c :: post) = .found d m post ∧
    ∀ s : List GenChunk,
      (∀ c' ∈ s, chunkFirstPartImage c' = none ∧ guardParts c' ≠ some []) →
      extractImageFromStream s = .noImage := by
  constructor
  · induction pre with
    | nil =>
      simpa using extractImageFromStream_cons_found c post d m hc
    | cons c0 pre ih =>
      have h0 := hpre c0 (List.mem_cons_self c0 pre)
      have hrest : ∀ c' ∈ pre, chunkFirstPartImage c' = none ∧
          guardParts c' ≠ some [] :=
        fun c' hmem => hpre c' (List.mem_cons_of_mem c0 hmem)
      rw [List.cons_append,
        extractImageFromStream_cons_skip c0 (pre ++ c :: post) h0.1 h0.2]
      exact ih hrest
  · intro s
    induction s with
    | nil => intro _; rfl
    | cons c0 rest ih =>
      intro hall
      have h0 := hall c0 (List.mem_cons_self c0 rest)
      have hrest := fun c' hmem => hall c' (List.mem_cons_of_mem c0 hmem)
      rw [extractImageFromStream_cons_skip c0 rest h0.1 h0.2]
      exact ih hrest

/-- Concrete instantiation of `extractImageFromStream_spec`: a text-only chunk
followed by an image chunk and a trailing chunk; the image is taken from the
second chunk and the third is left unconsumed, and a purely text stream yields
the no-image error. -/
theorem extractImageFromStream_spec_witness :
    extractImageFromStream
      [mkChunk (some [textPart]), mkChunk (some [imgPart "D" "image/png"]),
       mkChunk none] = .found "D" "image/png" [mkChunk none] ∧
    extractImageFromStream [mkChunk (some [textPart]), mkChunk none] =
      .noImage :=
  ⟨(extractImageFromStream_spec [mkChunk (some [textPart])] [mkChunk none]
      (mkChunk (some [imgPart "D" "image/png"])) "D" "image/png"
      (by intro c' h; fin_cases h; exact ⟨rfl, by decide⟩) rfl).1,
   (extractImageFromStream_spec [] [] (mkChunk (some [imgPart "D" "image/png"]))
      "D" "image/png" (by intro c' h; exact absurd h (List.not_mem_nil c'))
      rfl).2
     [mkChunk (some [textPart]), mkChunk none]
     (by intro c' h; fin_cases h <;> exact ⟨rfl, by decide⟩)⟩

/-- Claim C10: only the first element of a chunk's parts array is examined;
a chunk whose first part lacks inline image data is skipped — the scan result
on the whole stream equals the result on the remaining stream — even when a
later part of that same chunk carries inline image bytes with a MIME type. -/
theorem extractImageFromStream_skips_later_parts (p : GenPart)
    (ps : List GenPart) (q : GenPart) (c : GenChunk) (s : List GenChunk)
    (hg : guardParts c = some (p :: ps))
    (hp : partImage p = none)
    (hlater : q ∈ ps ∧ (partImage q).isSome = true) :
    chunkHasImageData c = true ∧
    extractImageFromStream (c :: s) = extractImageFromStream s := by
  refine ⟨?_, ?_⟩
  · unfold chunkHasImageData
    rw [hg]
    exact List.any_eq_true.mpr ⟨q, List.mem_cons_of_mem p hlater.1, hlater.2⟩
  · simp only [extractImageFromStream, hg, hp]

/-- Concrete instantiation of `extractImageFromStream_skips_later_parts`: the
chunk with parts `[text, image]` is skipped and the scan moves on to the next
chunk. -/
theorem extractImageFromStream_skips_later_parts_witness :
    chunkHasImageData (mkChunk (some [textPart, imgPart "A" "image/png"])) = true ∧
    extractImageFromStream
      [mkChunk (some [textPart, imgPart "A" "image/png"]),
       mkChunk (some [imgPart "B" "image/png"])] =
      extractImageFromStream [mkChunk (some [imgPart "B" "image/png"])] :=
  extractImageFromStream_skips_later_parts textPart
    [imgPart "A" "image/png"] (imgPart "A" "image/png")
    (mkChunk (some [textPart, imgPart "A" "image/png"]))
    [mkChunk (some [imgPart "B" "image/png"])]
    rfl rfl ⟨List.mem_singleton.mpr rfl, rfl⟩

/-! ## MutationComponent session state

Embeds the component-local state of `MutationComponent`
(src/components/MutationComponent.tsx): `status`, `result`, `error`. The
outcome of `imageService.generateMutatedImage` is passed in as an oracle
value (`Except Unit MutationResult`, the error payload being irrelevant to
the state transitions).
-/

inductive MutationStatus
  | pending
  | generating
  | ready
  | error
deriving DecidableEq, Repr

structure MutationResult where
  mutatedImageUrl : String
deriving DecidableEq, Repr

structure SessionState where
  status : MutationStatus
  result : Option MutationResult
  error : Option String
deriving DecidableEq, Repr

def remutateErrorMsg : String :=
  "Unable to generate new mutation. Please try again later."

def generateErrorMsg : String :=
  "Unable to generate mutation. Please try again later."

/-- Embeds `handleRemutate` (MutationComponent.tsx, lines 111-157) as the
sequence of states after each `setState` call, in source order: set
generating/clear error, stash and clear the result, then on success store the
new result and go ready; on failure set the error message and error status,
and, when a previous result existed, restore it, return to ready and clear
the error. The last element of the trace is the state the handler leaves
behind. -/
def handleRemutateTrace (s : SessionState) (outcome : Except Unit MutationResult) :
    List SessionState :=
  let previousResult := s.result
  let s1 := { s with status := .generating, error := none }
  let s2 := { s1 with result := none }
  match outcome with
  | .ok img =>
    let s3 := { s2 with result := some img }
    let s4 := { s3 with status := .ready }
    [s1, s2, s3, s4]
  | .error _ =>
    let s3 := { s2 with error := some remutateErrorMsg }
    let s4 := { s3 with status := .error }
    match previousResult with
    | some r =>
      let s5 := { s4 with result := some r }
      let s6 := { s5 with status := .ready }
      let s7 := { s6 with error := none }
      [s1, s2, s3, s4, s5, s6, s7]
    | none => [s1, s2, s3, s4]

/-- The state `handleRemutate` leaves behind. -/
def handleRemutate (s : SessionState) (outcome : Except Unit MutationResult) :
    SessionState :=
  (handleRemutateTrace s outcome).getLastD s

/-- Claim C2: for every session in Ready holding a prior MutationResult, a
failed regenerate attempt leaves the session back in Ready with the
pre-regeneration result restored intact and the error flag cleared, the error
having been surfaced transiently (some intermediate state of the handler
carries the error message, and the final one does not). -/
theorem handleRemutate_failure_restores (s : SessionState) (r : MutationResult)
    (_hs : s.status = .ready) (hr : s.result = some r) :
    handleRemutate s (.error ()) =
      { status := .ready, result := some r, error := none } ∧
    ∃ t ∈ handleRemutateTrace s (.error ()), t.error = some remutateErrorMsg ∧
      t.status = .error := by
  constructor
  · simp [handleRemutate, handleRemutateTrace, hr, List.getLastD]
  · refine ⟨{ s with
        result := none, error := some remutateErrorMsg, status := .error },
      ?_, rfl, rfl⟩
    simp [handleRemutateTrace, hr]

/-- Concrete instantiation of `handleRemutate_failure_restores` at a ready
session holding the result "img-0". -/
theorem handleRemutate_failure_restores_witness :
    handleRemutate ⟨.ready, some ⟨"img-0"⟩, none⟩ (.error ()) =
      { status := .ready, result := some ⟨"img-0"⟩, error := none } ∧
    ∃ t ∈ handleRemutateTrace ⟨.ready, some ⟨"img-0"⟩, none⟩ (.error ()),
      t.error = some remutateErrorMsg ∧ t.status = .error :=
  handleRemutate_failure_restores ⟨.ready, some ⟨"img-0"⟩, none⟩ ⟨"img-0"⟩
    rfl rfl

/-- Embeds the result-application part of the `generateMutation` closure in
the mount effect (MutationComponent.tsx, lines 47-83): after the awaited
generation settles, the closure first checks the `cancelled` flag and returns
without touching state when it is set; otherwise it applies the outcome
(store result and go ready, or set the error message and error status). -/
def generateMutationApply (cancelled : Bool) (s : SessionState)
    (outcome : Except Unit MutationResult) : SessionState :=
  if cancelled then s
  else
    match outcome with
    | .ok img => { s with result := some img, status := .ready }
    | .error _ => { s with error := some generateErrorMsg, status := .error }

/-- Claim C9: a cancelled session never transitions on a late-arriving
generation result — with the cancelled flag set, applying any outcome to any
session state leaves the state unchanged, while with the flag clear a
successful outcome does move the session to ready (the guard, not the
outcome, is what blocks the transition). -/
theorem generateMutationApply_cancelled (s : SessionState)
    (outcome : Except Unit MutationResult) (img : MutationResult) :
    generateMutationApply true s outcome = s ∧
    generateMutationApply false s (.ok img) =
      { s with result := some img, status := .ready } := by
  constructor
  · simp [generateMutationApply]
  · simp [generateMutationApply]

/-! ## Mint receipt parsing

Embeds the log-scanning tail of `mintMutant` (src/services/mintService.ts,
lines 50-77), the part that runs once `waitForTransactionReceipt` has
returned a confirmed receipt. `decodeEventLog` is an external ABI decoder
whose per-log outcome is modelled as the log's `decoded` field (`none` when
the decoder throws, which the source's `try/catch` swallows).
-/

structure MutatedArgs where
  tokenId : Nat
  originContract : String
  originTokenId : Nat
  minter : String
deriving DecidableEq, Repr

structure DecodedEvent where
  eventName : String
  args : MutatedArgs
deriving DecidableEq, Repr

structure ReceiptLog where
  decoded : Option DecodedEvent
deriving DecidableEq, Repr

structure TxReceipt where
  logs : List ReceiptLog
deriving DecidableEq, Repr

structure MintResult where
  hash : String
  tokenId : Option Nat
deriving DecidableEq, Repr

/-- Whether a log decodes against the ABI as the "Mutated" event. -/
def isMutatedLog (l : ReceiptLog) : Bool :=
  match l.decoded with
  | some d => d.eventName = "Mutated"
  | none => false

/-- The `for ... of receipt.logs` loop: skip logs that fail to decode or
decode to another event, and `break` with the tokenId of the first log that
decodes as "Mutated". -/
def parseMutatedTokenId : List ReceiptLog → Option Nat
  | [] => none
  | l :: rest =>
    match l.decoded with
    | some d =>
      if d.eventName = "Mutated" then some d.args.tokenId
      else parseMutatedTokenId rest
    | none => parseMutatedTokenId rest

/-- Embeds `mintMutant` from the point its receipt is confirmed: it always
returns (no throw on this path), with the parsed optional tokenId. -/
def mintMutantFromReceipt (hash : String) (receipt : TxReceipt) : MintResult :=
  ⟨hash, parseMutatedTokenId receipt.logs⟩

/-- Claim C4: on a confirmed receipt in which no log decodes as the "Mutated"
event, the mint still returns successfully with the token id unset; and when
some log does decode as "Mutated", the returned token id comes from the first
such log. -/
theorem mintMutantFromReceipt_spec (hash : String) (logs : List ReceiptLog) :
    ((∀ l ∈ logs, isMutatedLog l = false) →
      mintMutantFromReceipt hash ⟨logs⟩ = ⟨hash, none⟩) ∧
    (∀ l d, logs.find? isMutatedLog = some l → l.decoded = some d →
      mintMutantFromReceipt hash ⟨logs⟩ = ⟨hash, some d.args.tokenId⟩) := by
  constructor
  · intro hall
    suffices h : parseMutatedTokenId logs = none by
      simp [mintMutantFromReceipt, h]
    induction logs with
    | nil => rfl
    | cons l rest ih =>
      have h0 := hall l (List.mem_cons_self l rest)
      have hrest := fun l' hm => hall l' (List.mem_cons_of_mem l hm)
      unfold isMutatedLog at h0
      unfold parseMutatedTokenId
      rcases hd : l.decoded with _ | d
      · exact ih hrest
      · rw [hd] at h0
        simp only [decide_eq_false_iff_not] at h0
        simpa [h0] using ih hrest
  · intro l d hfind hdec
    suffices h : parseMutatedTokenId logs = some d.args.tokenId by
      simp [mintMutantFromReceipt, h]
    induction logs with
    | nil => simp at hfind
    | cons l0 rest ih =>
      rw [List.find?_cons] at hfind
      unfold parseMutatedTokenId
      rcases hml : isMutatedLog l0 with _ | _
      · rw [hml] at hfind
        simp only [cond_false] at hfind
        unfold isMutatedLog at hml
        rcases hd : l0.decoded with _ | d0
        · exact ih hfind
        · rw [hd] at hml
          simp only [decide_eq_false_iff_not] at hml
          simpa [hml] using ih hfind
      · rw [hml] at hfind
        simp only [cond_true, Option.some.injEq] at hfind
        subst hfind
        unfold isMutatedLog at hml
        rw [hdec] at hml
        simp only [decide_eq_true_eq] at hml
        simp [hdec, hml]

/-- Concrete instantiation of `mintMutantFromReceipt_spec`: a receipt whose
logs are an undecodable log, a Transfer log, a first Mutated log carrying
tokenId 42, and a second Mutated log carrying 43, yields tokenId 42; a
receipt with only the first two logs yields no tokenId. -/
theorem mintMutantFromReceipt_spec_witness :
    mintMutantFromReceipt "0xhash"
      ⟨[⟨none⟩, ⟨some ⟨"Transfer", 7, "0xoc", 1, "0xm"⟩⟩]⟩ = ⟨"0xhash", none⟩ ∧
    mintMutantFromReceipt "0xhash"
      ⟨[⟨none⟩, ⟨some ⟨"Transfer", 7, "0xoc", 1, "0xm"⟩⟩,
        ⟨some ⟨"Mutated", 42, "0xoc", 1, "0xm"⟩⟩,
        ⟨some ⟨"Mutated", 43, "0xoc", 1, "0xm"⟩⟩]⟩ = ⟨"0xhash", some 42⟩ :=
  ⟨(mintMutantFromReceipt_spec "0xhash"
      [⟨none⟩, ⟨some ⟨"Transfer", 7, "0xoc", 1, "0xm"⟩⟩]).1
      (by intro l h; fin_cases h <;> rfl),
   (mintMutantFromReceipt_spec "0xhash"
      [⟨none⟩, ⟨some ⟨"Transfer", 7, "0xoc", 1, "0xm"⟩⟩,
       ⟨some ⟨"Mutated", 42, "0xoc", 1, "0xm"⟩⟩,
       ⟨some ⟨"Mutated", 43, "0xoc", 1, "0xm"⟩⟩]).2
      ⟨some ⟨"Mutated", 42, "0xoc", 1, "0xm"⟩⟩
      ⟨"Mutated", 42, "0xoc", 1, "0xm"⟩ (by decide) rfl⟩

/-! ## Mint flow

Embeds `handleProceedToMint` (MutationComponent.tsx, lines 159-248). The
session state adds the `isMinting` flag and the success-modal fields to the
mutation state; the outcomes of the four awaited effectful calls
(`blobFromUrl`, `uploadImageBlob`, `uploadMetadata`, `mintMutant`) come from
an oracle environment, and the handler result records both the final state
and the ordered list of those calls it actually performed (haptics and
`alert` are presentation-only and not traced). The source wraps the whole
body in `try/catch/finally`; the early-return concurrency guard sits inside
the `try`, so the `finally` clause `setIsMinting(false)` runs on that path
too. -/

structure MintSuccessData where
  hash : String
  tokenId : Option Nat
  imageUri : String
deriving DecidableEq, Repr

structure MintSession where
  status : MutationStatus
  result : Option MutationResult
  isMinting : Bool
  mintSuccess : Option MintSuccessData
  showModal : Bool
deriving DecidableEq, Repr

inductive MintCall
  | blobFrom
  | uploadImage
  | uploadMetadata
  | mintChain
deriving DecidableEq, Repr

structure MintEnv where
  blob : Except Unit Unit
  imageUpload : Except Unit String
  metadataUpload : Except Unit String
  mint : Except Unit MintResult
deriving Repr

def handleProceedToMint (s : MintSession) (env : MintEnv) :
    MintSession × List MintCall :=
  if s.result.isNone ∨ s.status ≠ .ready ∨ s.isMinting then
    ({ s with isMinting := false }, [])
  else
    match env.blob with
    | .error _ => ({ s with isMinting := false }, [.blobFrom])
    | .ok _ =>
      match env.imageUpload with
      | .error _ => ({ s with isMinting := false }, [.blobFrom, .uploadImage])
      | .ok imageUri =>
        match env.metadataUpload with
        | .error _ =>
          ({ s with isMinting := false },
            [.blobFrom, .uploadImage, .uploadMetadata])
        | .ok _ =>
          match env.mint with
          | .error _ =>
            ({ s with isMinting := false },
              [.blobFrom, .uploadImage, .uploadMetadata, .mintChain])
          | .ok mr =>
            ({ s with
                isMinting := false,
                mintSuccess := some ⟨mr.hash, mr.tokenId, imageUri⟩,
                showModal := true },
              [.blobFrom, .uploadImage, .uploadMetadata, .mintChain])

/-- Whether an oracle outcome is a success. -/
def exceptOk {ε α : Type} : Except ε α → Bool
  | .ok _ => true
  | .error _ => false

/-- Claim C3: in the mint flow, the metadata upload is performed only when the
image upload was performed and succeeded; the on-chain mint call is performed
only when both uploads succeeded; and any publishing failure leaves the mint
call unperformed. -/
theorem handleProceedToMint_ordering (s : MintSession) (env : MintEnv) :
    (MintCall.uploadMetadata ∈ (handleProceedToMint s env).2 →
      MintCall.uploadImage ∈ (handleProceedToMint s env).2 ∧
      exceptOk env.imageUpload = true) ∧
    (MintCall.mintChain ∈ (handleProceedToMint s env).2 →
      exceptOk env.imageUpload = true ∧
      exceptOk env.metadataUpload = true) ∧
    (exceptOk env.imageUpload = false ∨ exceptOk env.metadataUpload = false →
      MintCall.mintChain ∉ (handleProceedToMint s env).2) := by
  unfold handleProceedToMint
  rcases env with ⟨b, iu, mu, mt⟩
  split
  · simp
  · rcases b with _ | _ <;> rcases iu with _ | u <;> rcases mu with _ | v <;>
      rcases mt with _ | w <;> simp [exceptOk]

/-- Concrete instantiation of `handleProceedToMint_ordering` at a ready
session and an environment whose metadata upload fails: the mint call is not
among the performed calls. -/
theorem handleProceedToMint_ordering_witness :
    MintCall.mintChain ∉
      (handleProceedToMint
        ⟨.ready, some ⟨"img"⟩, false, none, false⟩
        ⟨.ok (), .ok "ipfs-img", .error (), .ok ⟨"0xh", some 1⟩⟩).2 :=
  (handleProceedToMint_ordering
    ⟨.ready, some ⟨"img"⟩, false, none, false⟩
    ⟨.ok (), .ok "ipfs-img", .error (), .ok ⟨"0xh", some 1⟩⟩).2.2
    (Or.inr rfl)

/-- Counterexample to claim C8: with a mint already in flight
(`isMinting = true`), a further mint request performs no calls, but it does
not leave the session state unchanged — the `finally` clause of the handler
resets the in-flight minting flag to false even on the guard's early return. -/
theorem handleProceedToMint_guard_counterexample :
    (handleProceedToMint ⟨.ready, some ⟨"img"⟩, true, none, false⟩
        ⟨.ok (), .ok "u1", .ok "u2", .ok ⟨"0xh", some 1⟩⟩).2 = [] ∧
    (handleProceedToMint ⟨.ready, some ⟨"img"⟩, true, none, false⟩
        ⟨.ok (), .ok "u1", .ok "u2", .ok ⟨"0xh", some 1⟩⟩).1 ≠
      ⟨.ready, some ⟨"img"⟩, true, none, false⟩ := by
  constructor
  · rfl
  · decide

/-- Claim C8 (amended): for every session with a mint in flight, a further
mint request performs no upload or mint call and leaves the result, status and
success-modal fields unchanged, but resets the minting flag to false (the
handler's cleanup clause runs even on the guard's early return). -/
theorem handleProceedToMint_guard (s : MintSession) (env : MintEnv)
    (h : s.isMinting = true) :
    (handleProceedToMint s env).2 = [] ∧
    (handleProceedToMint s env).1.status = s.status ∧
    (handleProceedToMint s env).1.result = s.result ∧
    (handleProceedToMint s env).1.mintSuccess = s.mintSuccess ∧
    (handleProceedToMint s env).1.showModal = s.showModal ∧
    (handleProceedToMint s env).1.isMinting = false := by
  unfold handleProceedToMint
  rw [if_pos (Or.inr (Or.inr h))]
  simp

/-- Concrete instantiation of `handleProceedToMint_guard` at a ready session
whose minting flag is set. -/
theorem handleProceedToMint_guard_witness :
    (handleProceedToMint ⟨.ready, some ⟨"img"⟩, true, none, false⟩
        ⟨.ok (), .ok "u1", .ok "u2", .ok ⟨"0xh", some 1⟩⟩).2 = [] ∧
    (handleProceedToMint ⟨.ready, some ⟨"img"⟩, true, none, false⟩
        ⟨.ok (), .ok "u1", .ok "u2", .ok ⟨"0xh", some 1⟩⟩).1.status = .ready ∧
    (handleProceedToMint ⟨.ready, some ⟨"img"⟩, true, none, false⟩
        ⟨.ok (), .ok "u1", .ok "u2", .ok ⟨"0xh", some 1⟩⟩).1.result =
      some ⟨"img"⟩ ∧
    (handleProceedToMint ⟨.ready, some ⟨"img"⟩, true, none, false⟩
        ⟨.ok (), .ok "u1", .ok "u2", .ok ⟨"0xh", some 1⟩⟩).1.mintSuccess =
      none ∧
    (handleProceedToMint ⟨.ready, some ⟨"img"⟩, true, none, false⟩
        ⟨.ok (), .ok "u1", .ok "u2", .ok ⟨"0xh", some 1⟩⟩).1.showModal =
      false ∧
    (handleProceedToMint ⟨.ready, some ⟨"img"⟩, true, none, false⟩
        ⟨.ok (), .ok "u1", .ok "u2", .ok ⟨"0xh", some 1⟩⟩).1.isMinting =
      false :=
  handleProceedToMint_guard ⟨.ready, some ⟨"img"⟩, true, none, false⟩
    ⟨.ok (), .ok "u1", .ok "u2", .ok ⟨"0xh", some 1⟩⟩ rfl

/-! ## Asset resolution

Embeds `checkWarpletOwnership` (src/services/warpletService.ts, lines
70-119), `fetchWarpletByTokenId` (lines 26-65), and their composition in
`loadWarplet` (src/App.tsx, lines 108-161). Each HTTP call's outcome is an
oracle value: a parsed JSON body on a 2xx response, an `httpError` for a
non-ok status, or a `networkError` for a thrown fetch failure. Both source
functions wrap their body in `try/catch`: a network error is caught and
turned into `false` resp. `null`, and a non-ok response likewise returns
`false` resp. `null`, so neither function has an error channel at all — the
embedding's return types (`Bool`, `Option NFTData`) reflect that. Neither
function contains any retry loop: each models exactly one fetch, whose single
outcome is the oracle argument. -/

inductive FetchOutcome (α : Type)
  | ok (val : α)
  | httpError (status : Nat)
  | networkError
deriving DecidableEq, Repr

/-- Models JS `String.prototype.toLowerCase` by lowercasing each character
(the addresses involved are ASCII hex strings). -/
def lowerStr (s : String) : String := ⟨s.data.map Char.toLower⟩

/-- Parsed body of the `getOwnersForToken` response: the `owners` and
`ownerAddresses` fields, each possibly absent. -/
structure OwnersResponse where
  owners : Option (List String)
  ownerAddresses : Option (List String)
deriving DecidableEq, Repr

/-- The extraction `(Array.isArray(data?.owners) && data.owners) ||
(Array.isArray(data?.ownerAddresses) && data.ownerAddresses) || []`: the
`owners` array when present (an empty array is truthy in JS and is kept),
else `ownerAddresses` when present, else the empty list. -/
def extractOwners (r : OwnersResponse) : List String :=
  match r.owners with
  | some l => l
  | none => r.ownerAddresses.getD []

def checkWarpletOwnership (ownerAddress : String)
    (resp : FetchOutcome OwnersResponse) : Bool :=
  match resp with
  | .httpError _ => false
  | .networkError => false
  | .ok data =>
    (extractOwners data).any fun addr => lowerStr addr = lowerStr ownerAddress

/-- Parsed body of the `getNFTMetadata` response, reduced to the fields the
normalization reads; absent or empty-string fields are `none` (`truthyStr`
already encodes JS string truthiness for the `||` chains). -/
structure MetadataResponse where
  name : Option String
  imageCachedUrl : Option String
  imageOriginalUrl : Option String
  rawImage : Option String
deriving DecidableEq, Repr

structure NFTData where
  tokenId : Nat
  name : String
  image : String
deriving DecidableEq, Repr

def fetchWarpletByTokenId (tokenId : Nat)
    (resp : FetchOutcome MetadataResponse) : Option NFTData :=
  match resp with
  | .httpError _ => none
  | .networkError => none
  | .ok md =>
    some
      { tokenId := tokenId
        name := (truthyStr md.name).getD ("Warplet #" ++ toString tokenId)
        image :=
          ((truthyStr md.imageCachedUrl).orElse fun _ =>
            (truthyStr md.imageOriginalUrl).orElse fun _ =>
              truthyStr md.rawImage).getD "" }

inductive ResolveResult
  | resolved (d : NFTData)
  | notOwned
  | notFound
deriving DecidableEq, Repr

/-- Embeds the `loadWarplet` composition in App.tsx: check ownership first
(reporting the `no_warplet` error — NotOwned — when it fails), then fetch the
metadata (reporting the could-not-load error — NotFound — when it yields
null). -/
def loadWarplet (address : String) (tokenId : Nat)
    (ownResp : FetchOutcome OwnersResponse)
    (metaResp : FetchOutcome MetadataResponse) : ResolveResult :=
  if checkWarpletOwnership address ownResp then
    match fetchWarpletByTokenId tokenId metaResp with
    | none => .notFound
    | some w => .resolved w
  else
    .notOwned

/-- Claim C6: the resolver returns NotOwned — not NotFound — when the
returned owner set is non-empty but does not contain the caller's address
(case-insensitively), and NotFound when the asset lookup itself returns no
data. -/
theorem loadWarplet_notOwned_notFound (address : String) (tokenId : Nat)
    (own : OwnersResponse) (metaResp : FetchOutcome MetadataResponse) :
    (extractOwners own ≠ [] →
      (∀ a ∈ extractOwners own, lowerStr a ≠ lowerStr address) →
      loadWarplet address tokenId (.ok own) metaResp = .notOwned ∧
      loadWarplet address tokenId (.ok own) metaResp ≠ .notFound) ∧
    (checkWarpletOwnership address (.ok own) = true →
      fetchWarpletByTokenId tokenId metaResp = none →
      loadWarplet address tokenId (.ok own) metaResp = .notFound) := by
  constructor
  · intro _hne hnot
    have hchk : checkWarpletOwnership address (.ok own) = false := by
      unfold checkWarpletOwnership
      simp only [List.any_eq_false]
      intro a ha
      simpa using hnot a ha
    unfold loadWarplet
    rw [hchk]
    simp
  · intro hchk hfetch
    unfold loadWarplet
    rw [hchk, hfetch]
    simp

/-- Concrete instantiation of `loadWarplet_notOwned_notFound`: owner set
`["0xDEF"]` does not contain caller `0xAbC`, so the resolver reports
NotOwned; and for the owner `0xAbC` itself with an asset lookup that returns
no data (HTTP 404), it reports NotFound. -/
theorem loadWarplet_notOwned_notFound_witness :
    loadWarplet "0xAbC" 7 (.ok ⟨some ["0xDEF"], none⟩) (.httpError 404) =
      .notOwned ∧
    loadWarplet "0xAbC" 7 (.ok ⟨some ["0xabc"], none⟩) (.httpError 404) =
      .notFound :=
  ⟨((loadWarplet_notOwned_notFound "0xAbC" 7 ⟨some ["0xDEF"], none⟩
      (.httpError 404)).1 (by decide)
      (by intro a ha; fin_cases ha; decide)).1,
   (loadWarplet_notOwned_notFound "0xAbC" 7 ⟨some ["0xabc"], none⟩
      (.httpError 404)).2 (by decide) rfl⟩

/-- Counterexample to claim C7: a transient network failure during the
ownership check or the metadata lookup does not propagate to the caller as a
fetch error — both functions are total and map it to the same ordinary result
values (`false`, `null`) that an ordinary not-an-owner response or missing
asset produces. -/
theorem resolver_networkError_counterexample :
    checkWarpletOwnership "0xAbC" .networkError = false ∧
    checkWarpletOwnership "0xAbC" .networkError =
      checkWarpletOwnership "0xAbC" (.ok ⟨some ["0xDEF"], none⟩) ∧
    fetchWarpletByTokenId 7 .networkError = none ∧
    fetchWarpletByTokenId 7 .networkError =
      fetchWarpletByTokenId 7 (.httpError 404) := by
  refine ⟨rfl, by decide, rfl, rfl⟩

/-- Claim C7 (amended): the resolver performs no retries (each source function
issues exactly one fetch, whose single outcome the embedding passes in), and a
transient network failure — like a non-ok HTTP response — is caught and mapped
to the ordinary result values `false` (ownership check) and `null` (metadata
lookup) rather than propagating to the caller as a fetch error. -/
theorem resolver_networkError_swallowed (address : String) (tokenId st : Nat) :
    checkWarpletOwnership address .networkError = false ∧
    fetchWarpletByTokenId tokenId .networkError = none ∧
    checkWarpletOwnership address (.httpError st) = false ∧
    fetchWarpletByTokenId tokenId (.httpError st) = none :=
  ⟨rfl, rfl, rfl, rfl⟩

/-- Concrete instantiation of `resolver_networkError_swallowed` at address
`0xAbC`, token 7, HTTP status 500. -/
theorem resolver_networkError_swallowed_witness :
    checkWarpletOwnership "0xAbC" .networkError = false ∧
    fetchWarpletByTokenId 7 .networkError = none ∧
    checkWarpletOwnership "0xAbC" (.httpError 500) = false ∧
    fetchWarpletByTokenId 7 (.httpError 500) = none :=
  resolver_networkError_swallowed "0xAbC" 7 500

end MutantWarplet
